import Mathlib

/-!
Verification of the serial-terminal device-protocol engine.

The definitions below are a shallow embedding of the TypeScript source:
the command catalog (hex-string encoder and command constants), the
streaming-sample decoder `ParseData`, the per-chunk frame reassembly and
dispatch logic of the read loop in `connectToPort`, and the timed
connection sequencer.  JavaScript numbers that may be `undefined` are
modelled with `JSVal`; machine arithmetic (`& 0xFF`, `Uint8Array` byte
storage) is modelled with `% 256` on `Nat`/`Int`.
-/

namespace STerm

/-- A JavaScript value that is either a number or `undefined`.  All numbers
that arise in the modelled code are nonnegative integers, so the numeric
case carries a `Nat`. -/
inductive JSVal where
  | num : Nat → JSVal
  | undef : JSVal
deriving DecidableEq, Repr

/-- Reading `data[j]` on a JS typed array: in range gives the element,
out of range gives `undefined`. -/
def jsIdx (data : List Nat) (j : Nat) : JSVal :=
  match data[j]? with
  | some n => JSVal.num n
  | none => JSVal.undef

/-- The JS expression `data[j] & 0xFF`: an in-range byte is returned
unchanged (all stored values are below 256, and we reduce modulo 256 to
mirror the 8-bit mask), while an out-of-range read gives `undefined`,
which `& 0xFF` converts to `0`. -/
def maskFF (data : List Nat) (j : Nat) : Nat :=
  (data[j]?.getD 0) % 256

/- ### Command catalog: the hex-string encoder -/

/-- Errors thrown by `ConvertHexStringToByteArray`. -/
inductive HexError where
  | emptyInput
  | oddDigits
deriving DecidableEq, Repr

/-- Whitespace skipped by JS `parseInt` (the common cases). -/
def jsWhitespace (c : Char) : Bool :=
  c = ' ' || c = '\t' || c = '\n' || c = '\r'

/-- Value of a single hexadecimal digit character, if it is one. -/
def hexDigitVal (c : Char) : Option Nat :=
  if '0' ≤ c ∧ c ≤ '9' then some (c.toNat - '0'.toNat)
  else if 'a' ≤ c ∧ c ≤ 'f' then some (c.toNat - 'a'.toNat + 10)
  else if 'A' ≤ c ∧ c ≤ 'F' then some (c.toNat - 'A'.toNat + 10)
  else none

/-- Longest run of leading hex digits, accumulated left to right;
`none` when no digit has been consumed (the `NaN` case). -/
def hexRun : Option Nat → List Char → Option Nat
  | acc, [] => acc
  | acc, c :: cs =>
    match hexDigitVal c with
    | some d => hexRun (some ((acc.getD 0) * 16 + d)) cs
    | none => acc

/-- JS `parseInt` with radix 16 strips a leading `0x`/`0X`. -/
def stripHexStart : List Char → List Char
  | '0' :: 'x' :: rest => rest
  | '0' :: 'X' :: rest => rest
  | l => l

/-- The JS builtin `parseInt(s, 16)`: skip leading whitespace, take an
optional sign, strip a `0x` marker, then read the longest run of hex
digits; `none` models `NaN`. -/
def jsParseIntHex (s : List Char) : Option Int :=
  match s.dropWhile jsWhitespace with
  | '-' :: rest => (hexRun none (stripHexStart rest)).map (fun n => -(n : Int))
  | '+' :: rest => (hexRun none (stripHexStart rest)).map (fun n => (n : Int))
  | rest => (hexRun none (stripHexStart rest)).map (fun n => (n : Int))

/-- Storing a JS number into a `Uint8Array` slot: `NaN` becomes `0`,
anything else is taken modulo 2^8. -/
def toUint8 : Option Int → Nat
  | none => 0
  | some i => (i % 256).toNat

/-- Shallow embedding of `ConvertHexStringToByteArray` from the source:
throws on an empty string and on an odd number of characters, otherwise
converts each 2-character substring with `parseInt(_, 16)` and stores the
result in a byte array. -/
def ConvertHexStringToByteArray (hexString : List Char) : Except HexError (List Nat) :=
  if hexString.length = 0 then .error .emptyInput
  else if hexString.length % 2 ≠ 0 then .error .oddDigits
  else
    let numBytes := hexString.length / 2
    .ok ((List.range numBytes).map fun i =>
      toUint8 (jsParseIntHex ((hexString.drop (i * 2)).take 2)))

/-- True exactly when the encoder threw. -/
def isHexError : Except HexError (List Nat) → Bool
  | .error _ => true
  | .ok _ => false

/- ### Command constants -/

/-- The source builds its command constants through the hex encoder; none
of the constant strings is malformed, so the error branch is dead. -/
def hexConst (s : List Char) : List Nat :=
  match ConvertHexStringToByteArray s with
  | .ok b => b
  | .error _ => []

def GET_FIRMWARE_VERSION_COMMAND : List Nat := hexConst ['2', 'E']

def GET_SHIMMER_VERSION_COMMAND : List Nat := hexConst ['3', 'F']

def START_STREAMING_COMMAND : List Nat := hexConst ['0', '7']

def STOP_STREAMING_COMMAND : List Nat := hexConst ['2', '0']

def GET_EXG_REG1_COMMAND : List Nat := hexConst ['6', '3', '0', '0', '0', '0', '0', 'A']

def GET_EXG_REG2_COMMAND : List Nat := hexConst ['6', '3', '0', '1', '0', '0', '0', 'A']

def SET_EXG_REG1_COMMAND : List Nat := hexConst ['6', '1', '0', '0', '0', '0', '0', 'A']

def SET_EXG_REG2_COMMAND : List Nat := hexConst ['6', '1', '0', '0', '0', '1', '0', 'A']

def SHIMMER3_DEFAULT_TEST_REG1 : List Nat := [0, 163, 16, 69, 69, 0, 0, 0, 2, 1]

def SHIMMER3_DEFAULT_TEST_REG2 : List Nat := [0, 163, 16, 69, 69, 0, 0, 0, 2, 1]

/- ### Sample decoder -/

/-- The fixed channel-type descriptor used by the read loop. -/
def dataTypes : List String := ["u24", "u8", "i24r", "i24r", "u8", "i24r", "i24r"]

/-- Body of `ParseData`, carrying the running payload index `j` exactly as
the source's mutable `j` does.  `u8` pushes the raw indexed value (which
is `undefined` when out of range), `u24` assembles three bytes
little-endian, `i24r` assembles three bytes big-endian; an unrecognized
type string consumes nothing and pushes nothing. -/
def parseDataAux (data : List Nat) : List String → Nat → List JSVal
  | [], _ => []
  | t :: ts, j =>
    if t = "u8" then
      jsIdx data j :: parseDataAux data ts (j + 1)
    else if t = "u24" then
      JSVal.num (maskFF data j + maskFF data (j + 1) * 2 ^ 8 +
        maskFF data (j + 2) * 2 ^ 16) :: parseDataAux data ts (j + 3)
    else if t = "i24r" then
      JSVal.num (maskFF data j * 2 ^ 16 + maskFF data (j + 1) * 2 ^ 8 +
        maskFF data (j + 2)) :: parseDataAux data ts (j + 3)
    else
      parseDataAux data ts j

/-- Shallow embedding of `ParseData` from the source. -/
def ParseData (data : List Nat) (dts : List String) : List JSVal :=
  parseDataAux data dts 0

/-- A descriptor entry the decoder recognizes. -/
def isKnownType (t : String) : Bool :=
  t == "u8" || t == "u24" || t == "i24r"

/- ### Read-loop state: reassembly buffer and session globals -/

/-- The mutable session state touched by the read loop in `connectToPort`:
the reassembly buffer `temp` (which starts out `undefined`, hence
`Option`) and the module-level globals.  Globals that are declared
without an initializer start as `undefined` (`JSVal.undef`). -/
structure RxState where
  temp : Option (List Nat)
  startStreaming : Bool
  firmwareIdentifier : JSVal
  firmwareMajor : JSVal
  firmwareMinor : JSVal
  firmwareInternal : JSVal
  hardwareVersion : JSVal
  chipId : JSVal
deriving DecidableEq, Repr

/-- The session state right after a connection opens. -/
def initialRxState : RxState :=
  { temp := none
    startStreaming := false
    firmwareIdentifier := JSVal.undef
    firmwareMajor := JSVal.undef
    firmwareMinor := JSVal.undef
    firmwareInternal := JSVal.undef
    hardwareVersion := JSVal.undef
    chipId := JSVal.undef }

/-- Observable protocol events produced by the read loop (lines written to
the terminal are abstracted into one event per logical message). -/
inductive Event where
  | ackReceived
  | sample (values : List JSVal)
  | fwVersion (identifier major minor internal : JSVal)
  | hwVersion (v : JSVal)
  | exgConfig (chip : Nat) (dump : List Nat)
deriving DecidableEq, Repr

/-- The runtime error raised when the append branch dereferences the
not-yet-created assembly buffer (`temp.length` with `temp` undefined). -/
inductive JsError where
  | typeErrorUndefinedTemp
deriving DecidableEq, Repr

/-- One pass of the firmware-version extraction loop
`for (let i = 2; i < 8; i++) ...`, whose body advances `i` by six inner
increments before the header's own increment.  The fuel argument
`8 - i` strictly bounds the number of remaining iterations, keeping the
recursion structural. -/
def fwLoopAux (t : List Nat) : Nat → RxState → List Event → Nat → RxState × List Event
  | 0, s, evs, _ => (s, evs)
  | fuel + 1, s, evs, i =>
    if i < 8 then
      let identifier := JSVal.num (maskFF t i + maskFF t (i + 1) * 2 ^ 8)
      let major := JSVal.num (maskFF t (i + 2) + maskFF t (i + 3) * 2 ^ 8)
      let minor := jsIdx t (i + 4)
      let internal := jsIdx t (i + 5)
      let s := { s with
        firmwareIdentifier := identifier
        firmwareMajor := major
        firmwareMinor := minor
        firmwareInternal := internal }
      fwLoopAux t fuel s (evs ++ [Event.fwVersion identifier major minor internal]) (i + 7)
    else (s, evs)

/-- The firmware-version extraction loop, started at index `i`. -/
def fwLoop (t : List Nat) (s : RxState) (evs : List Event) (i : Nat) : RxState × List Event :=
  fwLoopAux t (8 - i) s evs i

/-- The frame-completion checks that run on the assembly buffer after a
chunk has been folded in: the streaming-sample check, then the chained
firmware-version / hardware-version / EXG-config checks. -/
def checkBuffer (s : RxState) (t : List Nat) : RxState × List Event :=
  let sampleEvents :=
    if t[0]? = some 0 ∧ t.length = 18 ∧ s.startStreaming = true then
      [Event.sample (ParseData (t.drop 1) dataTypes)]
    else []
  if t[1]? = some 47 ∧ t.length = 8 then
    let r := fwLoop t s [] 2
    (r.1, sampleEvents ++ r.2)
  else if t[1]? = some 37 ∧ t.length = 3 then
    ({ s with hardwareVersion := jsIdx t 2 },
      sampleEvents ++ [Event.hwVersion (jsIdx t 2)])
  else if t[1]? = some 98 ∧ t.length = 13 then
    (s, sampleEvents ++
      [Event.exgConfig (if s.chipId = JSVal.num 1 then 1 else 2) (t.drop 3)])
  else (s, sampleEvents)

/-- Processing of one raw chunk `value` by the read loop: the ack
notification, then the marker-reset / append choice for the assembly
buffer, then the completion checks.  Appending with no existing buffer
throws. -/
def processChunk (s : RxState) (value : List Nat) : Except JsError (RxState × List Event) := do
  let ackEvents :=
    if value[0]? = some 255 ∧ s.startStreaming = true then [Event.ackReceived] else []
  let temp ←
    if value[0]? = some 255 ∨ value[0]? = some 0 then
      pure value
    else
      match s.temp with
      | none => Except.error JsError.typeErrorUndefinedTemp
      | some old => pure (old ++ value)
  let s := { s with temp := some temp }
  let r := checkBuffer s temp
  pure (r.1, ackEvents ++ r.2)

/-- Feeding a list of chunks in order, collecting all events. -/
def feedChunks (s : RxState) : List (List Nat) → Except JsError (RxState × List Event)
  | [] => Except.ok (s, [])
  | c :: cs => do
    let r1 ← processChunk s c
    let r2 ← feedChunks r1.1 cs
    pure (r2.1, r1.2 ++ r2.2)

/- ### Connection sequencer -/

/-- The eight timed callbacks registered by `connectToPort` after the
transport opens. -/
inductive SeqStep where
  | getFirmwareVersion
  | getShimmerVersion
  | setExgRegs1
  | setExgRegs2
  | getExgRegs1
  | getExgRegs2
  | startStreamingStep
  | releaseWriter
deriving DecidableEq, Repr

/-- An action performed on the shared writer handle. -/
inductive WriterAction where
  | write (bytes : List Nat)
  | releaseLock
deriving DecidableEq, Repr

/-- JS loose inequality `v != n` between a possibly-undefined variable and
a numeric literal: `undefined != n` is true. -/
def jsNeq (v : JSVal) (n : Nat) : Bool :=
  v ≠ JSVal.num n

/-- A whole command written one byte at a time
(`writer.write(cmd.subarray(i, i + 1))` for each index). -/
def perByteWrites (cmd : List Nat) : List WriterAction :=
  cmd.map fun b => WriterAction.write [b]

/-- Semantics of one sequencer callback: the state update it performs and
the writer actions it emits, in order.  The four EXG steps return early
when `firmwareIdentifier != 3 || hardwareVersion != 3`. -/
def seqStepRun (k : SeqStep) (s : RxState) : RxState × List WriterAction :=
  match k with
  | .getFirmwareVersion => (s, [WriterAction.write GET_FIRMWARE_VERSION_COMMAND])
  | .getShimmerVersion => (s, [WriterAction.write GET_SHIMMER_VERSION_COMMAND])
  | .setExgRegs1 =>
    if jsNeq s.firmwareIdentifier 3 || jsNeq s.hardwareVersion 3 then (s, [])
    else (s, perByteWrites SET_EXG_REG1_COMMAND ++ perByteWrites SHIMMER3_DEFAULT_TEST_REG1)
  | .setExgRegs2 =>
    if jsNeq s.firmwareIdentifier 3 || jsNeq s.hardwareVersion 3 then (s, [])
    else (s, perByteWrites SET_EXG_REG2_COMMAND ++ perByteWrites SHIMMER3_DEFAULT_TEST_REG2)
  | .getExgRegs1 =>
    if jsNeq s.firmwareIdentifier 3 || jsNeq s.hardwareVersion 3 then (s, [])
    else ({ s with chipId := JSVal.num 1 }, [WriterAction.write GET_EXG_REG1_COMMAND])
  | .getExgRegs2 =>
    if jsNeq s.firmwareIdentifier 3 || jsNeq s.hardwareVersion 3 then (s, [])
    else ({ s with chipId := JSVal.num 2 }, [WriterAction.write GET_EXG_REG2_COMMAND])
  | .startStreamingStep =>
    ({ s with startStreaming := true }, [WriterAction.write START_STREAMING_COMMAND])
  | .releaseWriter => (s, [WriterAction.releaseLock])

/-- The timed schedule built in `connectToPort`: `waitTime` starts at 200
and each `setTimeout` call passes `waitTime += 200` (or `+= 5000` for the
streaming step), so the delay of each callback is the updated value. -/
def connectSchedule : List (Nat × SeqStep) :=
  let waitTime0 := 200
  let waitTime1 := waitTime0 + 200
  let waitTime2 := waitTime1 + 200
  let waitTime3 := waitTime2 + 200
  let waitTime4 := waitTime3 + 200
  let waitTime5 := waitTime4 + 200
  let waitTime6 := waitTime5 + 200
  let waitTime7 := waitTime6 + 5000
  let waitTime8 := waitTime7 + 200
  [(waitTime1, SeqStep.getFirmwareVersion),
   (waitTime2, SeqStep.getShimmerVersion),
   (waitTime3, SeqStep.setExgRegs1),
   (waitTime4, SeqStep.setExgRegs2),
   (waitTime5, SeqStep.getExgRegs1),
   (waitTime6, SeqStep.getExgRegs2),
   (waitTime7, SeqStep.startStreamingStep),
   (waitTime8, SeqStep.releaseWriter)]

/- ### Helper abbreviations used by the theorems -/

/-- The firmware fields written by one pass of the extraction loop at
index 2 of an 8-byte buffer. -/
def setFwFields (s : RxState) (t : List Nat) : RxState :=
  { s with
    firmwareIdentifier := JSVal.num (maskFF t 2 + maskFF t 3 * 2 ^ 8)
    firmwareMajor := JSVal.num (maskFF t 4 + maskFF t 5 * 2 ^ 8)
    firmwareMinor := jsIdx t 6
    firmwareInternal := jsIdx t 7 }

/-- The firmware-version event produced for an 8-byte buffer. -/
def fwEventOf (t : List Nat) : Event :=
  Event.fwVersion (JSVal.num (maskFF t 2 + maskFF t 3 * 2 ^ 8))
    (JSVal.num (maskFF t 4 + maskFF t 5 * 2 ^ 8)) (jsIdx t 6) (jsIdx t 7)

/-- Event classifiers, used to state which frame kinds were decoded. -/
def hasSampleEvent (es : List Event) : Bool :=
  es.any fun e => match e with | Event.sample _ => true | _ => false

def hasFwEvent (es : List Event) : Bool :=
  es.any fun e => match e with | Event.fwVersion _ _ _ _ => true | _ => false

def hasHwEvent (es : List Event) : Bool :=
  es.any fun e => match e with | Event.hwVersion _ => true | _ => false

def hasExgEvent (es : List Event) : Bool :=
  es.any fun e => match e with | Event.exgConfig _ _ => true | _ => false

/- ### Lemmas about the sample decoder -/

/-- Reading past a fixed head shifts the index by one. -/
lemma jsIdx_cons (b : Nat) (data : List Nat) (j : Nat) :
    jsIdx (b :: data) (j + 1) = jsIdx data j := by
  simp [jsIdx]

lemma maskFF_cons (b : Nat) (data : List Nat) (j : Nat) :
    maskFF (b :: data) (j + 1) = maskFF data j := by
  simp [maskFF]

/-- Consuming a leading byte of the payload is the same as starting the
index walk one position later. -/
lemma parseDataAux_cons_shift (b : Nat) (data : List Nat) :
    ∀ (ts : List String) (j : Nat),
      parseDataAux (b :: data) ts (j + 1) = parseDataAux data ts j := by
  intro ts
  induction ts with
  | nil => intro j; simp [parseDataAux]
  | cons t ts ih =>
    intro j
    simp only [parseDataAux, jsIdx_cons, maskFF_cons]
    split_ifs with h1 h2 h3
    · rw [show j + 1 + 1 = (j + 1) + 1 from rfl, ih]
    · rw [show j + 1 + 3 = (j + 3) + 1 from rfl, ih]
    · rw [show j + 1 + 3 = (j + 3) + 1 from rfl, ih]
    · exact ih j

/-- The decoded list has one entry per recognized descriptor entry,
independently of the payload. -/
lemma parseDataAux_length (data : List Nat) :
    ∀ (ts : List String) (j : Nat),
      (parseDataAux data ts j).length = ts.countP isKnownType := by
  intro ts
  induction ts with
  | nil => intro j; simp [parseDataAux]
  | cons t ts ih =>
    intro j
    simp only [parseDataAux]
    split_ifs with h1 h2 h3
    · subst h1; simp [List.countP_cons, isKnownType, ih]
    · subst h2; simp [List.countP_cons, isKnownType, ih]
    · subst h3; simp [List.countP_cons, isKnownType, ih]
    · simp [List.countP_cons, isKnownType, h1, h2, h3, ih]

/- ### C3: hex-encoder error behavior -/

/-- C3 counterexample: the claim says `encodeHex` fails with
`MalformedHex` whenever the input contains a non-hex character, but
`ConvertHexStringToByteArray "ZZ"` succeeds, returning the single byte 0
(the `parseInt` result `NaN` is stored as 0 by the `Uint8Array`). -/
theorem c3_counterexample :
    ConvertHexStringToByteArray ['Z', 'Z'] = Except.ok [0] := rfl

/-- C3 (amended): `ConvertHexStringToByteArray` fails exactly when the
input is empty or has an odd number of characters; non-hex characters do
not cause a failure.  On every other input it returns one byte per
character pair.  `encodeHex "2E"` gives the byte 0x2E, and both
`encodeHex ""` and `encodeHex "2"` fail. -/
theorem c3_hex_errors :
    (∀ s : List Char,
      isHexError (ConvertHexStringToByteArray s) = true ↔ (s = [] ∨ s.length % 2 = 1))
    ∧ ConvertHexStringToByteArray ['2', 'E'] = Except.ok [46]
    ∧ ConvertHexStringToByteArray [] = Except.error HexError.emptyInput
    ∧ ConvertHexStringToByteArray ['2'] = Except.error HexError.oddDigits
    ∧ (∀ s : List Char, s ≠ [] → s.length % 2 = 0 →
        (ConvertHexStringToByteArray s).map List.length = Except.ok (s.length / 2)) := by
  refine ⟨?_, rfl, rfl, rfl, ?_⟩
  · intro s
    unfold ConvertHexStringToByteArray
    split_ifs with h1 h2
    · simp [isHexError, List.length_eq_zero.mp h1]
    · have : s.length % 2 = 1 := Nat.mod_two_eq_zero_or_one _ |>.resolve_left h2
      simp [isHexError, this]
    · constructor
      · intro h; cases h
      · rintro (rfl | hodd)
        · simp at h1
        · omega
  · intro s hne heven
    unfold ConvertHexStringToByteArray
    rw [if_neg (by simpa using hne), if_neg (by omega)]
    simp [Except.map]

/-- C3 witness: the even-length case of the amended claim at a concrete
input. -/
theorem c3_witness :
    (ConvertHexStringToByteArray ['a', 'b', 'c', 'd']).map List.length = Except.ok 2 :=
  c3_hex_errors.2.2.2.2 ['a', 'b', 'c', 'd'] (by decide) (by decide)

/- ### C4: sample-decoder field semantics -/

/-- C4: `ParseData` walks the payload left to right: a `u8` entry consumes
one byte and pushes it unchanged, a `u24` entry consumes three bytes
assembled little-endian, an `i24r` entry consumes three bytes assembled
big-endian without sign extension; on the spec's concrete 17-byte payload
and the fixed descriptor it returns `[1, 5, 1, 2, 6, 3, 4]`. -/
theorem c4_parse_walk :
    (∀ (b : Nat) (p : List Nat) (ts : List String),
      ParseData (b :: p) ("u8" :: ts) = JSVal.num b :: ParseData p ts)
    ∧ (∀ (b0 b1 b2 : Nat) (p : List Nat) (ts : List String),
        b0 < 256 → b1 < 256 → b2 < 256 →
        ParseData (b0 :: b1 :: b2 :: p) ("u24" :: ts) =
          JSVal.num (b0 + b1 * 2 ^ 8 + b2 * 2 ^ 16) :: ParseData p ts)
    ∧ (∀ (b0 b1 b2 : Nat) (p : List Nat) (ts : List String),
        b0 < 256 → b1 < 256 → b2 < 256 →
        ParseData (b0 :: b1 :: b2 :: p) ("i24r" :: ts) =
          JSVal.num (b0 * 2 ^ 16 + b1 * 2 ^ 8 + b2) :: ParseData p ts)
    ∧ ParseData [1, 0, 0, 5, 0, 0, 1, 0, 0, 2, 6, 0, 0, 3, 0, 0, 4] dataTypes =
        [JSVal.num 1, JSVal.num 5, JSVal.num 1, JSVal.num 2,
         JSVal.num 6, JSVal.num 3, JSVal.num 4] := by
  refine ⟨?_, ?_, ?_, rfl⟩
  · intro b p ts
    show jsIdx (b :: p) 0 :: parseDataAux (b :: p) ts 1 = _
    rw [show (1 : Nat) = 0 + 1 from rfl, parseDataAux_cons_shift]
    simp [jsIdx, ParseData]
  · intro b0 b1 b2 p ts h0 h1 h2
    show JSVal.num (maskFF (b0 :: b1 :: b2 :: p) 0 + maskFF (b0 :: b1 :: b2 :: p) 1 * 2 ^ 8 +
        maskFF (b0 :: b1 :: b2 :: p) 2 * 2 ^ 16) :: parseDataAux (b0 :: b1 :: b2 :: p) ts 3 = _
    rw [show (3 : Nat) = (0 + 1) + 1 + 1 from rfl, parseDataAux_cons_shift,
      parseDataAux_cons_shift, parseDataAux_cons_shift]
    simp [maskFF, ParseData, Nat.mod_eq_of_lt, h0, h1, h2]
  · intro b0 b1 b2 p ts h0 h1 h2
    show JSVal.num (maskFF (b0 :: b1 :: b2 :: p) 0 * 2 ^ 16 + maskFF (b0 :: b1 :: b2 :: p) 1 * 2 ^ 8 +
        maskFF (b0 :: b1 :: b2 :: p) 2) :: parseDataAux (b0 :: b1 :: b2 :: p) ts 3 = _
    rw [show (3 : Nat) = (0 + 1) + 1 + 1 from rfl, parseDataAux_cons_shift,
      parseDataAux_cons_shift, parseDataAux_cons_shift]
    simp [maskFF, ParseData, Nat.mod_eq_of_lt, h0, h1, h2]

/-- C4 witness: the `u24` law applied at a concrete payload. -/
theorem c4_witness :
    ParseData [7, 1, 2] ("u24" :: []) = JSVal.num (7 + 1 * 2 ^ 8 + 2 * 2 ^ 16) :: ParseData [] [] :=
  c4_parse_walk.2.1 7 1 2 [] [] (by decide) (by decide) (by decide)

/- ### C5: behavior on truncated payloads -/

/-- C5 counterexample: the claim says a payload shorter than the summed
descriptor widths makes `decodeSample` fail with `TruncatedPayload`, but
`ParseData` has no failure path: on the 2-byte payload `[1, 0]` with the
3-byte descriptor `[u24]` it returns the value `[1]`, reading the missing
third byte as 0. -/
theorem c5_counterexample :
    ParseData [1, 0] ("u24" :: []) = [JSVal.num 1] := rfl

/-- C5 (amended): `ParseData` never fails on a short payload: it always
returns one value per recognized descriptor entry, reading each
out-of-range byte as `undefined`, which the 24-bit assemblies mask to 0
and the `u8` case pushes through unchanged; on the empty payload with the
fixed descriptor it returns `[0, undefined, 0, 0, undefined, 0, 0]`. -/
theorem c5_no_truncation_error :
    (∀ (payload : List Nat) (ds : List String),
      (ParseData payload ds).length = ds.countP isKnownType)
    ∧ ParseData [] dataTypes =
        [JSVal.num 0, JSVal.undef, JSVal.num 0, JSVal.num 0,
         JSVal.undef, JSVal.num 0, JSVal.num 0] := by
  exact ⟨fun payload ds => parseDataAux_length payload ds 0, rfl⟩

/- ### C1: the connection-sequencer timeline -/

/-- C1 counterexample: `waitTime` starts at 200 and every `setTimeout`
receives the pre-incremented value `waitTime += 200`, so the callbacks
fire at 400, 600, ..., 1400, 6400, 6600 ms; nothing at all is scheduled
at t+200ms, where the claim places GetFirmwareVersion. -/
theorem c1_counterexample :
    connectSchedule.map Prod.fst = [400, 600, 800, 1000, 1200, 1400, 6400, 6600]
    ∧ ¬(200 ∈ connectSchedule.map Prod.fst) := by
  exact ⟨rfl, by decide⟩

/-- C1 (amended): the Sequencer's steps fire at absolute offsets shifted
200ms later than claimed: GetFirmwareVersion at t+400ms,
GetHardwareVersion at t+600ms, the conditional register-set steps at
t+800ms and t+1000ms, the conditional register queries at t+1200ms and
t+1400ms, StartStreaming (setting the streaming flag) at t+6400ms, and
the write-handle release at t+6600ms. -/
theorem c1_schedule_offsets :
    connectSchedule =
      [(400, SeqStep.getFirmwareVersion), (600, SeqStep.getShimmerVersion),
       (800, SeqStep.setExgRegs1), (1000, SeqStep.setExgRegs2),
       (1200, SeqStep.getExgRegs1), (1400, SeqStep.getExgRegs2),
       (6400, SeqStep.startStreamingStep), (6600, SeqStep.releaseWriter)]
    ∧ (∀ s : RxState, seqStepRun SeqStep.startStreamingStep s =
        ({ s with startStreaming := true }, [WriterAction.write START_STREAMING_COMMAND]))
    ∧ (∀ s : RxState, seqStepRun SeqStep.releaseWriter s = (s, [WriterAction.releaseLock])) :=
  ⟨rfl, fun _ => rfl, fun _ => rfl⟩

/- ### C2: the EXG feature gate -/

/-- The identity condition gating the four EXG steps. -/
def exgGate (s : RxState) : Prop :=
  s.firmwareIdentifier = JSVal.num 3 ∧ s.hardwareVersion = JSVal.num 3

instance (s : RxState) : Decidable (exgGate s) := by
  unfold exgGate; infer_instance

/-- The early-return test of the EXG callbacks is false exactly when the
identity pair is (3, 3). -/
lemma exgCond_false_iff (s : RxState) :
    (jsNeq s.firmwareIdentifier 3 || jsNeq s.hardwareVersion 3) = false ↔ exgGate s := by
  simp [jsNeq, exgGate]

/-- C2: each of the four EXG steps emits writes exactly when
`firmwareIdentifier` and `hardwareVersion` both equal 3 in the state the
step observes when its timer fires; when the gate is open the set steps
write the command and the default test payload one byte at a time and the
query steps set the chip selector before writing the query; when it is
closed they do nothing (returning normally); steps 1, 2, 7 and 8 act
unconditionally. -/
theorem c2_exg_gating (s : RxState) :
    ((seqStepRun SeqStep.setExgRegs1 s).2 ≠ [] ↔ exgGate s)
    ∧ ((seqStepRun SeqStep.setExgRegs2 s).2 ≠ [] ↔ exgGate s)
    ∧ ((seqStepRun SeqStep.getExgRegs1 s).2 ≠ [] ↔ exgGate s)
    ∧ ((seqStepRun SeqStep.getExgRegs2 s).2 ≠ [] ↔ exgGate s)
    ∧ (exgGate s →
        seqStepRun SeqStep.setExgRegs1 s =
          (s, perByteWrites SET_EXG_REG1_COMMAND ++ perByteWrites SHIMMER3_DEFAULT_TEST_REG1)
        ∧ seqStepRun SeqStep.setExgRegs2 s =
          (s, perByteWrites SET_EXG_REG2_COMMAND ++ perByteWrites SHIMMER3_DEFAULT_TEST_REG2)
        ∧ seqStepRun SeqStep.getExgRegs1 s =
          ({ s with chipId := JSVal.num 1 }, [WriterAction.write GET_EXG_REG1_COMMAND])
        ∧ seqStepRun SeqStep.getExgRegs2 s =
          ({ s with chipId := JSVal.num 2 }, [WriterAction.write GET_EXG_REG2_COMMAND]))
    ∧ (¬exgGate s →
        seqStepRun SeqStep.setExgRegs1 s = (s, [])
        ∧ seqStepRun SeqStep.setExgRegs2 s = (s, [])
        ∧ seqStepRun SeqStep.getExgRegs1 s = (s, [])
        ∧ seqStepRun SeqStep.getExgRegs2 s = (s, []))
    ∧ seqStepRun SeqStep.getFirmwareVersion s = (s, [WriterAction.write GET_FIRMWARE_VERSION_COMMAND])
    ∧ seqStepRun SeqStep.getShimmerVersion s = (s, [WriterAction.write GET_SHIMMER_VERSION_COMMAND])
    ∧ seqStepRun SeqStep.startStreamingStep s =
        ({ s with startStreaming := true }, [WriterAction.write START_STREAMING_COMMAND])
    ∧ seqStepRun SeqStep.releaseWriter s = (s, [WriterAction.releaseLock]) := by
  by_cases hg : exgGate s
  · have h : (jsNeq s.firmwareIdentifier 3 || jsNeq s.hardwareVersion 3) = false :=
      (exgCond_false_iff s).mpr hg
    refine ⟨?_, ?_, ?_, ?_, fun _ => ⟨?_, ?_, ?_, ?_⟩, fun hng => absurd hg hng,
      rfl, rfl, rfl, rfl⟩ <;>
      simp [seqStepRun, h, hg, perByteWrites,
        SET_EXG_REG1_COMMAND, SET_EXG_REG2_COMMAND,
        GET_EXG_REG1_COMMAND, GET_EXG_REG2_COMMAND,
        SHIMMER3_DEFAULT_TEST_REG1, SHIMMER3_DEFAULT_TEST_REG2, hexConst,
        ConvertHexStringToByteArray]
  · have h : (jsNeq s.firmwareIdentifier 3 || jsNeq s.hardwareVersion 3) = true := by
      cases hb : (jsNeq s.firmwareIdentifier 3 || jsNeq s.hardwareVersion 3) with
      | true => rfl
      | false => exact absurd ((exgCond_false_iff s).mp hb) hg
    refine ⟨?_, ?_, ?_, ?_, fun hgg => absurd hgg hg, fun _ => ⟨?_, ?_, ?_, ?_⟩,
      rfl, rfl, rfl, rfl⟩ <;>
      simp [seqStepRun, h, hg]

/-- C2 witness: a state with identity (3, 3). -/
def exgReadyState : RxState :=
  { initialRxState with firmwareIdentifier := JSVal.num 3, hardwareVersion := JSVal.num 3 }

/-- C2 witness: with identity (3, 3), the first EXG query step sets the
chip selector to 1 and writes GetExgReg1. -/
theorem c2_witness :
    seqStepRun SeqStep.getExgRegs1 exgReadyState =
      ({ exgReadyState with chipId := JSVal.num 1 }, [WriterAction.write GET_EXG_REG1_COMMAND]) :=
  ((c2_exg_gating exgReadyState).2.2.2.2.1 ⟨rfl, rfl⟩).2.2.1

/- ### C10: first chunk without a marker byte -/

/-- C10: if the assembly buffer does not exist yet (as on the very first
chunk after a connection opens) and the chunk's first byte is neither
0x00 nor 0xFF, the append step dereferences the undefined buffer and the
chunk's processing aborts with a TypeError instead of accumulating or
dropping the chunk. -/
theorem c10_first_chunk_throws (s : RxState) (value : List Nat) (b : Nat)
    (htemp : s.temp = none) (hv : value[0]? = some b) (h0 : b ≠ 0) (h255 : b ≠ 255) :
    processChunk s value = Except.error JsError.typeErrorUndefinedTemp := by
  have hm : ¬(value[0]? = some 255 ∨ value[0]? = some 0) := by
    rw [hv]
    rintro (h | h) <;> simp_all
  simp [processChunk, hm, htemp]

/-- C10 witness: the single-byte chunk `[1]` fed to the fresh state. -/
theorem c10_witness :
    processChunk initialRxState [1] = Except.error JsError.typeErrorUndefinedTemp :=
  c10_first_chunk_throws initialRxState [1] 1 rfl rfl (by decide) (by decide)

/- ### Lemmas about the completion checks -/

/-- Started at index 2, the extraction loop performs exactly one pass. -/
lemma fwLoop_at_two (t : List Nat) (s : RxState) :
    fwLoop t s [] 2 = (setFwFields s t, [fwEventOf t]) := rfl

/-- A buffer whose second byte is 0x2F and whose length is 8 runs the
firmware extraction and nothing else. -/
lemma checkBuffer_fw (s : RxState) (t : List Nat)
    (h1 : t[1]? = some 47) (h2 : t.length = 8) :
    checkBuffer s t = (setFwFields s t, [fwEventOf t]) := by
  have hs : ¬(t[0]? = some 0 ∧ t.length = 18 ∧ s.startStreaming = true) := by
    rintro ⟨-, h, -⟩; omega
  simp only [checkBuffer, if_neg hs, if_pos (And.intro h1 h2), fwLoop_at_two,
    List.nil_append]

/-- A buffer strictly shorter than 8 bytes whose visible second byte (if
any) is 0x2F matches no completion row, so the checks change nothing and
emit nothing. -/
lemma checkBuffer_skip (s : RxState) (t : List Nat)
    (hlen : t.length < 8) (h1 : t.length ≤ 1 ∨ t[1]? = some 47) :
    checkBuffer s t = (s, []) := by
  have hs : ¬(t[0]? = some 0 ∧ t.length = 18 ∧ s.startStreaming = true) := by
    rintro ⟨-, h, -⟩; omega
  have hf : ¬(t[1]? = some 47 ∧ t.length = 8) := by rintro ⟨-, h⟩; omega
  have hh : ¬(t[1]? = some 37 ∧ t.length = 3) := by
    rintro ⟨h37, h3⟩
    rcases h1 with hle | h47
    · omega
    · rw [h47] at h37; simp at h37
  have he : ¬(t[1]? = some 98 ∧ t.length = 13) := by rintro ⟨-, h⟩; omega
  simp only [checkBuffer, if_neg hs, if_neg hf, if_neg hh, if_neg he]

/-- The events emitted by the completion checks, written as an explicit
function of the buffer shape. -/
lemma checkBuffer_events (s : RxState) (t : List Nat) :
    (checkBuffer s t).2 =
      (if t[0]? = some 0 ∧ t.length = 18 ∧ s.startStreaming = true
        then [Event.sample (ParseData (t.drop 1) dataTypes)] else []) ++
      (if t[1]? = some 47 ∧ t.length = 8 then [fwEventOf t]
        else if t[1]? = some 37 ∧ t.length = 3 then [Event.hwVersion (jsIdx t 2)]
        else if t[1]? = some 98 ∧ t.length = 13 then
          [Event.exgConfig (if s.chipId = JSVal.num 1 then 1 else 2) (t.drop 3)]
        else []) := by
  simp only [checkBuffer]
  split_ifs <;> simp [fwLoop_at_two, fwEventOf]

/- ### C7: the dispatch table -/

/-- C7 counterexample: an 18-byte buffer of zeros matches the
StreamingSample row (first byte 0x00, length 18) but is not decoded when
the streaming flag has not been armed. -/
theorem c7_counterexample :
    (List.replicate 18 0 : List Nat)[0]? = some 0
    ∧ (List.replicate 18 0 : List Nat).length = 18
    ∧ initialRxState.startStreaming = false
    ∧ (checkBuffer initialRxState (List.replicate 18 0)).2 = [] := by decide

/-- C7 (amended): a buffer is decoded exactly when its discriminator and
length match a row of the frame-kind table, except that the
StreamingSample row (buffer[0] = 0x00, length 18) additionally requires
the streaming flag to be armed; FirmwareVersion (buffer[1] = 0x2F,
length 8), HardwareVersion (buffer[1] = 0x25, length 3) and ExgConfig
(buffer[1] = 0x62, length 13) fire exactly on their rows, and a buffer
matching no row is never decoded on that feed call. -/
theorem c7_dispatch (s : RxState) (t : List Nat) :
    (hasSampleEvent (checkBuffer s t).2 = true ↔
      (t[0]? = some 0 ∧ t.length = 18 ∧ s.startStreaming = true))
    ∧ (hasFwEvent (checkBuffer s t).2 = true ↔ (t[1]? = some 47 ∧ t.length = 8))
    ∧ (hasHwEvent (checkBuffer s t).2 = true ↔ (t[1]? = some 37 ∧ t.length = 3))
    ∧ (hasExgEvent (checkBuffer s t).2 = true ↔ (t[1]? = some 98 ∧ t.length = 13))
    ∧ (¬(t[0]? = some 0 ∧ t.length = 18 ∧ s.startStreaming = true) →
        ¬(t[1]? = some 47 ∧ t.length = 8) →
        ¬(t[1]? = some 37 ∧ t.length = 3) →
        ¬(t[1]? = some 98 ∧ t.length = 13) →
        (checkBuffer s t).2 = []) := by
  have h5 : ¬(t[0]? = some 0 ∧ t.length = 18 ∧ s.startStreaming = true) →
      ¬(t[1]? = some 47 ∧ t.length = 8) →
      ¬(t[1]? = some 37 ∧ t.length = 3) →
      ¬(t[1]? = some 98 ∧ t.length = 13) →
      (checkBuffer s t).2 = [] := by
    intro h1 h2 h3 h4
    rw [checkBuffer_events]
    simp [h1, h2, h3, h4]
  refine ⟨?_, ?_, ?_, ?_, h5⟩ <;>
    (rw [checkBuffer_events]
     split_ifs <;>
       simp_all [hasSampleEvent, hasFwEvent, hasHwEvent, hasExgEvent, fwEventOf])

/-- C7 witness: a complete firmware frame is dispatched to the firmware
decoder. -/
theorem c7_witness :
    hasFwEvent (checkBuffer initialRxState [255, 47, 3, 0, 4, 0, 5, 6]).2 = true :=
  (c7_dispatch initialRxState [255, 47, 3, 0, 4, 0, 5, 6]).2.1.mpr ⟨rfl, rfl⟩

/- ### C8: firmware-version field extraction -/

/-- C8: decoding an 8-byte FirmwareVersion frame writes the identity
fields from fixed offsets, each exactly once — the extraction loop body
runs a single time, producing a single firmware event — with
identifier = b2 | (b3 << 8), major = b4 | (b5 << 8), minor = b6 and
internal = b7. -/
theorem c8_fw_fields (s : RxState) (b0 b1 b2 b3 b4 b5 b6 b7 : Nat)
    (h1 : b1 = 47) (hb2 : b2 < 256) (hb3 : b3 < 256) (hb4 : b4 < 256) (hb5 : b5 < 256) :
    checkBuffer s [b0, b1, b2, b3, b4, b5, b6, b7] =
      ({ s with
          firmwareIdentifier := JSVal.num (b2 + b3 * 2 ^ 8)
          firmwareMajor := JSVal.num (b4 + b5 * 2 ^ 8)
          firmwareMinor := JSVal.num b6
          firmwareInternal := JSVal.num b7 },
       [Event.fwVersion (JSVal.num (b2 + b3 * 2 ^ 8)) (JSVal.num (b4 + b5 * 2 ^ 8))
          (JSVal.num b6) (JSVal.num b7)]) := by
  subst h1
  rw [checkBuffer_fw s [b0, 47, b2, b3, b4, b5, b6, b7] rfl rfl]
  simp [setFwFields, fwEventOf, maskFF, jsIdx, Nat.mod_eq_of_lt, hb2, hb3, hb4, hb5]

/-- C8 witness: the concrete frame FF 2F 03 00 04 00 05 06 decodes to
identifier 3, major 4, minor 5, internal 6. -/
theorem c8_witness :
    checkBuffer initialRxState [255, 47, 3, 0, 4, 0, 5, 6] =
      ({ initialRxState with
          firmwareIdentifier := JSVal.num (3 + 0 * 2 ^ 8)
          firmwareMajor := JSVal.num (4 + 0 * 2 ^ 8)
          firmwareMinor := JSVal.num 5
          firmwareInternal := JSVal.num 6 },
       [Event.fwVersion (JSVal.num (3 + 0 * 2 ^ 8)) (JSVal.num (4 + 0 * 2 ^ 8))
          (JSVal.num 5) (JSVal.num 6)]) :=
  c8_fw_fields initialRxState 255 47 3 0 4 0 5 6 rfl (by decide) (by decide)
    (by decide) (by decide)

/- ### C9: EXG register-dump extraction -/

/-- C9 counterexample: a 13-byte ExgConfig frame reports the bytes from
offset 3 to the end of the buffer, which are 10 bytes, not 9 as the claim
states. -/
theorem c9_counterexample :
    (checkBuffer initialRxState [255, 98, 0, 1, 2, 3, 4, 5, 6, 7, 8, 9, 10]).2 =
      [Event.exgConfig 2 [1, 2, 3, 4, 5, 6, 7, 8, 9, 10]]
    ∧ ([1, 2, 3, 4, 5, 6, 7, 8, 9, 10] : List Nat).length ≠ 9 := by decide

/-- C9 (amended): decoding a 13-byte ExgConfig frame reports as the raw
register dump exactly the 10 bytes from offset 3 to the end of the
buffer, tagged as chip 1 when the chip selector is 1 and as chip 2
otherwise, and leaves the session state unchanged. -/
theorem c9_exg_dump (s : RxState) (t : List Nat)
    (h1 : t[1]? = some 98) (h2 : t.length = 13) :
    (checkBuffer s t).2 =
      [Event.exgConfig (if s.chipId = JSVal.num 1 then 1 else 2) (t.drop 3)]
    ∧ (t.drop 3).length = 10
    ∧ (checkBuffer s t).1 = s := by
  have hs : ¬(t[0]? = some 0 ∧ t.length = 18 ∧ s.startStreaming = true) := by
    rintro ⟨-, h, -⟩; omega
  have hf : ¬(t[1]? = some 47 ∧ t.length = 8) := by
    rintro ⟨h47, -⟩; rw [h1] at h47; simp at h47
  have hh : ¬(t[1]? = some 37 ∧ t.length = 3) := by rintro ⟨-, h⟩; omega
  refine ⟨?_, ?_, ?_⟩
  · simp only [checkBuffer, if_neg hs, if_neg hf, if_neg hh,
      if_pos (And.intro h1 h2), List.nil_append]
  · rw [List.length_drop, h2]
  · simp only [checkBuffer, if_neg hs, if_neg hf, if_neg hh,
      if_pos (And.intro h1 h2)]

/-- C9 witness holder: a session state whose chip selector is 1. -/
def chipOneState : RxState := { initialRxState with chipId := JSVal.num 1 }

/-- C9 witness: a concrete ExgConfig frame decoded with chip selector 1. -/
theorem c9_witness :
    (checkBuffer chipOneState [255, 98, 0, 1, 2, 3, 4, 5, 6, 7, 8, 9, 10]).2 =
      [Event.exgConfig (if chipOneState.chipId = JSVal.num 1 then 1 else 2)
        ([255, 98, 0, 1, 2, 3, 4, 5, 6, 7, 8, 9, 10].drop 3)] :=
  (c9_exg_dump chipOneState [255, 98, 0, 1, 2, 3, 4, 5, 6, 7, 8, 9, 10] rfl rfl).1

/- ### Lemmas about chunk processing -/

/-- Binding a successful result just continues. -/
lemma ok_bind {α β : Type} (x : α) (f : α → Except JsError β) :
    (Except.ok x : Except JsError α) >>= f = f x := rfl

/-- A chunk whose first byte is not a marker is appended to the existing
buffer and the completion checks run on the extended buffer. -/
lemma processChunk_append (s : RxState) (ch old : List Nat)
    (htemp : s.temp = some old) (h0 : ch[0]? ≠ some 0) (h255 : ch[0]? ≠ some 255) :
    processChunk s ch =
      Except.ok (checkBuffer { s with temp := some (old ++ ch) } (old ++ ch)) := by
  have hack : ¬(ch[0]? = some 255 ∧ s.startStreaming = true) := fun h => h255 h.1
  have hm : ¬(ch[0]? = some 255 ∨ ch[0]? = some 0) := by
    rintro (h | h)
    · exact h255 h
    · exact h0 h
  simp [processChunk, hm, hack, htemp]
  rfl

/-- A chunk starting with a marker byte replaces the buffer; while the
streaming flag is down no ack notification is emitted. -/
lemma processChunk_marker (s : RxState) (ch : List Nat)
    (hm : ch[0]? = some 255 ∨ ch[0]? = some 0) (hss : s.startStreaming = false) :
    processChunk s ch = Except.ok (checkBuffer { s with temp := some ch } ch) := by
  have hack : ¬(ch[0]? = some 255 ∧ s.startStreaming = true) := by
    rintro ⟨-, h⟩
    rw [hss] at h
    cases h
  simp only [processChunk, if_pos hm, if_neg hack, pure_bind]
  rfl

/- ### C6: frame reassembly across chunk boundaries -/

/-- Invariant step for the reassembly proof: once a nonempty strict
prefix of a complete firmware frame sits in the buffer, feeding the
remaining bytes as nonempty chunks none of which begins with a marker
byte completes exactly the firmware frame, emitting its single event. -/
lemma feedChunks_fw_tail (frame : List Nat) (hlen : frame.length = 8)
    (hfw : frame[1]? = some 47) :
    ∀ (chunks : List (List Nat)) (s : RxState) (m : Nat),
      1 ≤ m → m < 8 →
      s.temp = some (frame.take m) →
      chunks.flatten = frame.drop m →
      (∀ ch ∈ chunks, ch ≠ []) →
      (∀ ch ∈ chunks, ch[0]? ≠ some 0 ∧ ch[0]? ≠ some 255) →
      feedChunks s chunks =
        Except.ok (setFwFields { s with temp := some frame } frame, [fwEventOf frame]) := by
  intro chunks
  induction chunks with
  | nil =>
    intro s m h1 h8 htemp hjoin hne hmark
    exfalso
    have hdrop : frame.drop m = [] := by
      rw [← hjoin, List.flatten_nil]
    have hz : frame.length - m = 0 := by
      rw [← List.length_drop, hdrop]
      rfl
    omega
  | cons ch cs ih =>
    intro s m h1 h8 htemp hjoin hne hmark
    rw [List.flatten_cons] at hjoin
    have hcne : ch ≠ [] := hne ch (List.mem_cons_self ch cs)
    have hck : 1 ≤ ch.length := by
      rcases ch with _ | ⟨b, cb⟩
      · exact absurd rfl hcne
      · simp
    have hlensum : ch.length + cs.flatten.length = 8 - m := by
      have h := congrArg List.length hjoin
      rw [List.length_append, List.length_drop, hlen] at h
      exact h
    have hctake : ch = (frame.drop m).take ch.length := by
      rw [← hjoin]
      exact (List.take_left ch cs.flatten).symm
    have hcsdrop : cs.flatten = frame.drop (m + ch.length) := by
      rw [← List.drop_drop, ← hjoin]
      exact (List.drop_left ch cs.flatten).symm
    have happ : frame.take m ++ ch = frame.take (m + ch.length) := by
      rw [List.take_add frame m ch.length, ← hctake]
    have hc0 := hmark ch (List.mem_cons_self ch cs)
    by_cases hfull : m + ch.length = 8
    · -- final chunk: the appended buffer is the whole frame
      have hflat : cs.flatten = [] := by
        rw [hcsdrop, hfull, ← hlen, List.drop_length]
      have hcs : cs = [] := by
        rcases cs with _ | ⟨ch', cs'⟩
        · rfl
        · exact absurd ((List.flatten_eq_nil_iff.mp hflat) ch' (by simp))
            (hne ch' (by simp))
      subst hcs
      have hcframe : frame.take m ++ ch = frame := by
        rw [happ, hfull, ← hlen, List.take_length]
      simp only [feedChunks, processChunk_append s ch (frame.take m) htemp hc0.1 hc0.2,
        hcframe, checkBuffer_fw ({ s with temp := some frame }) frame hfw hlen, ok_bind]
      rfl
    · -- intermediate chunk: the buffer is still a strict prefix
      have hmid : m + ch.length < 8 := by omega
      have hlent : (frame.take (m + ch.length)).length < 8 := by
        rw [List.length_take]
        omega
      have h47 : (frame.take (m + ch.length))[1]? = some 47 := by
        rw [List.getElem?_take, if_pos (by omega)]
        exact hfw
      have hih := ih ({ s with temp := some (frame.take (m + ch.length)) } : RxState)
        (m + ch.length) (by omega) hmid rfl hcsdrop
        (fun ch' hc' => hne ch' (List.mem_cons_of_mem ch hc'))
        (fun ch' hc' => hmark ch' (List.mem_cons_of_mem ch hc'))
      simp only [feedChunks, processChunk_append s ch (frame.take m) htemp hc0.1 hc0.2, happ,
        checkBuffer_skip ({ s with temp := some (frame.take (m + ch.length)) })
          (frame.take (m + ch.length)) hlent (Or.inr h47), ok_bind, hih]
      rfl

/-- C6 counterexample: the FirmwareVersion frame FF 2F 03 00 04 00 05 06
split as [FF 2F 03] + [00 04 00 05 06] yields no completed frame at all
(the second chunk starts with the marker byte 0x00, so it replaces the
accumulated prefix instead of extending it), while the unsplit feed
yields exactly one firmware frame. -/
theorem c6_counterexample :
    (feedChunks initialRxState [[255, 47, 3], [0, 4, 0, 5, 6]]).map (fun r => r.2) =
      Except.ok []
    ∧ (feedChunks initialRxState [[255, 47, 3, 0, 4, 0, 5, 6]]).map (fun r => r.2) =
      Except.ok [Event.fwVersion (JSVal.num 3) (JSVal.num 4) (JSVal.num 5) (JSVal.num 6)] :=
  ⟨rfl, rfl⟩

/-- C6 (amended): for a complete 8-byte FirmwareVersion frame that begins
with a marker byte (0x00 or 0xFF), feeding any partition of its bytes
into nonempty consecutive chunks in which no chunk after the first
begins with 0x00 or 0xFF gives exactly the same result as feeding the
bytes unsplit: exactly one completed FirmwareVersion frame, decoded from
the full 8 bytes, with the whole frame left in the buffer. -/
theorem c6_reassembly (frame : List Nat) (chunks : List (List Nat))
    (hlen : frame.length = 8)
    (hmark : frame[0]? = some 0 ∨ frame[0]? = some 255)
    (hfw : frame[1]? = some 47)
    (hjoin : chunks.flatten = frame)
    (hne : ∀ ch ∈ chunks, ch ≠ [])
    (htail : ∀ ch ∈ chunks.tail, ch[0]? ≠ some 0 ∧ ch[0]? ≠ some 255) :
    feedChunks initialRxState chunks = feedChunks initialRxState [frame]
    ∧ feedChunks initialRxState [frame] =
        Except.ok (setFwFields { initialRxState with temp := some frame } frame,
          [fwEventOf frame]) := by
  have hsingle : feedChunks initialRxState [frame] =
      Except.ok (setFwFields { initialRxState with temp := some frame } frame,
        [fwEventOf frame]) := by
    simp only [feedChunks,
      processChunk_marker initialRxState frame hmark.symm rfl,
      checkBuffer_fw ({ initialRxState with temp := some frame }) frame hfw hlen, ok_bind]
    rfl
  refine ⟨?_, hsingle⟩
  rw [hsingle]
  rcases chunks with _ | ⟨c0, cs⟩
  · exfalso
    rw [List.flatten_nil] at hjoin
    rw [← hjoin] at hlen
    simp at hlen
  · rw [List.flatten_cons] at hjoin
    have hc0ne : c0 ≠ [] := hne c0 (List.mem_cons_self c0 cs)
    have hc0k : 1 ≤ c0.length := by
      rcases c0 with _ | _
      · exact absurd rfl hc0ne
      · simp
    have hc0take : c0 = frame.take c0.length := by
      rw [← hjoin]
      exact (List.take_left c0 cs.flatten).symm
    have hcsdrop : cs.flatten = frame.drop c0.length := by
      rw [← hjoin]
      exact (List.drop_left c0 cs.flatten).symm
    have hc0head : c0[0]? = frame[0]? := by
      conv_lhs => rw [hc0take]
      rw [List.getElem?_take, if_pos (by omega)]
    have hlensum : c0.length + cs.flatten.length = 8 := by
      have h := congrArg List.length hjoin
      rw [List.length_append, hlen] at h
      exact h
    have hstep := processChunk_marker initialRxState c0
      (by rw [hc0head]; exact hmark.symm) rfl
    by_cases hfull : c0.length = 8
    · -- a single chunk carrying the whole frame
      have hc0frame : c0 = frame := by
        rw [hc0take, hfull, ← hlen, List.take_length]
      have hcs : cs = [] := by
        have hflat : cs.flatten = [] := by
          rw [hcsdrop, hfull, ← hlen, List.drop_length]
        rcases cs with _ | ⟨ch', cs'⟩
        · rfl
        · exact absurd ((List.flatten_eq_nil_iff.mp hflat) ch' (by simp))
            (hne ch' (by simp))
      subst hcs
      rw [hc0frame, hsingle]
    · -- the first chunk is a strict prefix; induction covers the rest
      have hk7 : c0.length < 8 := by omega
      have h47 : c0.length ≤ 1 ∨ c0[1]? = some 47 := by
        rcases Nat.lt_or_ge c0.length 2 with h | h
        · exact Or.inl (by omega)
        · refine Or.inr ?_
          rw [hc0take, List.getElem?_take, if_pos (by omega)]
          exact hfw
      have hskip := checkBuffer_skip ({ initialRxState with temp := some c0 }) c0 hk7 h47
      have htailfeed := feedChunks_fw_tail frame hlen hfw cs
        ({ initialRxState with temp := some c0 } : RxState) c0.length hc0k hk7
        (by rw [← hc0take]) hcsdrop
        (fun ch' hc' => hne ch' (List.mem_cons_of_mem c0 hc'))
        (fun ch' hc' => htail ch' hc')
      simp only [feedChunks, hstep, hskip, ok_bind, htailfeed]
      rfl

/-- C6 witness: the concrete frame FF 2F 03 00 04 00 05 06 split after
its second byte behaves exactly like the unsplit feed. -/
theorem c6_witness :
    feedChunks initialRxState [[255, 47], [3, 0, 4, 0, 5, 6]] =
      feedChunks initialRxState [[255, 47, 3, 0, 4, 0, 5, 6]]
    ∧ feedChunks initialRxState [[255, 47, 3, 0, 4, 0, 5, 6]] =
        Except.ok
          (setFwFields { initialRxState with temp := some [255, 47, 3, 0, 4, 0, 5, 6] }
            [255, 47, 3, 0, 4, 0, 5, 6],
           [fwEventOf [255, 47, 3, 0, 4, 0, 5, 6]]) :=
  c6_reassembly [255, 47, 3, 0, 4, 0, 5, 6] [[255, 47], [3, 0, 4, 0, 5, 6]]
    rfl (Or.inr rfl) rfl rfl (by decide) (by decide)

end STerm
